import Mathlib

/-!
Verification of the MagPi listener pipeline (src/listener/src).

Shallow embedding of the capture-to-persistence pipeline:

* `AudioBuffer` (recorder.py) — sliding-window buffer backed by a
  `deque(maxlen=buffer_size)`; `add_chunk` appends samples one by one,
  `get_sample` reads the most recent `sample_size` samples.
* `BirdNETAnalyzer` / `AnalyzerWorker` (analyzer.py) — classification of a
  window, in real mode (external classifier, which may raise — modelled as
  `Except`) or mock mode (energy-based stub).  Floating point values are
  modelled as exact rationals; the irrational intermediate `rms` value is
  passed explicitly and tied to the audio by the predicate `IsRms`.
* `DetectionDatabase` / `DbWriterWorker` (database.py, db_writer.py) — the
  dedup-and-persist stage.  The SQL query of `check_duplicate` is modelled as
  a scan of the list of rows; the wall-clock instant `datetime.utcnow()` at
  which an item is dequeued is an explicit parameter of each step.
* `ListenerService.stop` (main.py) — the shutdown sequence, modelled as the
  list of externally visible actions it performs, in program order.
* `Queue.put` — the bounded `queue.Queue` of the standard library as used by
  main.py (`maxsize=100`): a blocking put on a full queue.

Timestamps and sample values are rationals, machine floats are treated as
exact arithmetic.
-/

namespace MagPi

/-- config.py `ListenerConfig` (the fields the pipeline reads). -/
structure ListenerConfig where
  audio_device : Int
  sample_rate : ℕ
  chunk_size : ℕ
  buffer_duration : ℕ
  sample_duration : ℕ
  min_confidence : ℚ
  duplicate_window : ℚ
  num_workers : ℕ
  birdnet_location_lat : ℚ
  birdnet_location_lon : ℚ
deriving DecidableEq, Repr

/-- config.py defaults (`ListenerConfig()` field defaults). -/
def defaultConfig : ListenerConfig :=
  { audio_device := -1
    sample_rate := 48000
    chunk_size := 2048
    buffer_duration := 10
    sample_duration := 5
    min_confidence := 1/2
    duplicate_window := 30
    num_workers := 2
    birdnet_location_lat := 40.7128
    birdnet_location_lon := -74.0060 }

/-! ## database.py -/

/-- A row of the `detections` table: species, confidence, timestamp,
latitude, longitude, details (the analyzer's start/end offsets). -/
structure DbRow where
  species : String
  confidence : ℚ
  timestamp : ℚ
  latitude : ℚ
  longitude : ℚ
  start_time : ℚ
  end_time : ℚ
deriving DecidableEq, Repr

/-- database.py `DetectionDatabase.check_duplicate` (lines 224-240):
`SELECT COUNT(*) FROM detections WHERE species = ? AND timestamp >= ?` with
`since = now - timedelta(seconds=window_seconds)`; returns `count > 0`.
The instant `datetime.utcnow()` is the explicit parameter `now`; ISO-string
comparison of timestamps is modelled as the numeric order it agrees with. -/
def DetectionDatabase.check_duplicate (db : List DbRow) (species : String)
    (window_seconds now : ℚ) : Bool :=
  db.any fun r => r.species == species && decide (now - window_seconds ≤ r.timestamp)

/-! ## db_writer.py -/

/-- An item of the detections queue, as enqueued by analyzer.py (lines
181-189): species, confidence, the window's capture timestamp, and the
details dict carrying the detection's start/end offsets. -/
structure DetectionData where
  species : String
  confidence : ℚ
  timestamp : ℚ
  start_time : ℚ
  end_time : ℚ
deriving DecidableEq, Repr

/-- The row built and inserted by db_writer.py lines 55-67 via
`DetectionDatabase.add_detection` (database.py lines 79-99): the process
location is attached to the record. -/
def DbWriterWorker.mkRow (cfg : ListenerConfig) (d : DetectionData) : DbRow :=
  { species := d.species
    confidence := d.confidence
    timestamp := d.timestamp
    latitude := cfg.birdnet_location_lat
    longitude := cfg.birdnet_location_lon
    start_time := d.start_time
    end_time := d.end_time }

/-- One iteration of `DbWriterWorker.run` (db_writer.py lines 40-73) for a
dequeued detection: check for a duplicate of the same species within
`cfg.duplicate_window` seconds of `now` (the wall clock at processing time,
the second component of `item`); on a duplicate the detection is discarded,
otherwise it is inserted with the configured location. -/
def DbWriterWorker.writeStep (cfg : ListenerConfig) (db : List DbRow)
    (item : DetectionData × ℚ) : List DbRow :=
  if DetectionDatabase.check_duplicate db item.1.species cfg.duplicate_window item.2 then
    db
  else
    db ++ [DbWriterWorker.mkRow cfg item.1]

/-- `DbWriterWorker.run` over a finite stream of dequeued items, each paired
with the wall-clock instant at which the worker processes it. -/
def DbWriterWorker.run (cfg : ListenerConfig) (db : List DbRow)
    (items : List (DetectionData × ℚ)) : List DbRow :=
  items.foldl (DbWriterWorker.writeStep cfg) db

/-- The rows inserted by a run of the persistence stage (the store minus its
prior contents; `writeStep` only ever appends). -/
def DbWriterWorker.newRows (cfg : ListenerConfig) (db : List DbRow)
    (items : List (DetectionData × ℚ)) : List DbRow :=
  (DbWriterWorker.run cfg db items).drop db.length

/-- The concrete scenario of spec §8: dedup window 30 s, "Turdus migratorius"
detected at t = 0, 10 and 40, each processed at its own timestamp. -/
def robin : String := "Turdus migratorius"

def demoItems : List (DetectionData × ℚ) :=
  [(⟨robin, 9/10, 0, 0, 3⟩, 0), (⟨robin, 9/10, 10, 0, 3⟩, 10), (⟨robin, 9/10, 40, 0, 3⟩, 40)]

/-! ## recorder.py -/

/-- recorder.py `AudioBuffer` (lines 16-48): a circular buffer backed by
`deque(maxlen=sample_rate * duration_seconds)`. -/
structure AudioBuffer where
  sample_rate : ℕ
  duration_seconds : ℕ
  sample_duration : ℕ
  buffer : List ℚ
deriving DecidableEq, Repr

def AudioBuffer.buffer_size (b : AudioBuffer) : ℕ := b.sample_rate * b.duration_seconds

def AudioBuffer.sample_size (b : AudioBuffer) : ℕ := b.sample_rate * b.sample_duration

/-- `collections.deque(maxlen=maxlen).append(x)`: the new element is always
appended; once the deque is full the oldest (front) element is discarded. -/
def dequeAppend (maxlen : ℕ) (buf : List ℚ) (x : ℚ) : List ℚ :=
  (buf ++ [x]).drop (buf.length + 1 - maxlen)

/-- `AudioBuffer.add_chunk` (recorder.py lines 30-34): appends the chunk's
samples one at a time to the deque. -/
def AudioBuffer.add_chunk (b : AudioBuffer) (chunk : List ℚ) : AudioBuffer :=
  { b with buffer := chunk.foldl (dequeAppend b.buffer_size) b.buffer }

/-- A sequence of `add_chunk` calls, as performed by the capture loop. -/
def AudioBuffer.pushAll (b : AudioBuffer) (chunks : List (List ℚ)) : AudioBuffer :=
  chunks.foldl AudioBuffer.add_chunk b

/-- Python slicing `xs[-n:]` (recorder.py line 41): the last `n` elements;
for `n = 0` Python yields the whole list. -/
def pyTakeLast (l : List ℚ) (n : ℕ) : List ℚ :=
  if n = 0 then l else l.drop (l.length - n)

/-- `AudioBuffer.get_sample` (recorder.py lines 36-43): returns the most
recent `sample_size` samples when the buffer holds at least that many,
`None` otherwise.  The second component records the buffer state after the
call: the method only reads the deque, so it is returned unchanged. -/
def AudioBuffer.get_sample (b : AudioBuffer) : Option (List ℚ) × AudioBuffer :=
  if b.sample_size ≤ b.buffer.length then (some (pyTakeLast b.buffer b.sample_size), b)
  else (none, b)

/-- `AudioBuffer.is_ready` (recorder.py lines 45-48). -/
def AudioBuffer.is_ready (b : AudioBuffer) : Bool :=
  decide (b.sample_size ≤ b.buffer.length)

/-- An item of the samples (windows) queue as enqueued by recorder.py: the
dict `{'audio', 'timestamp', 'sample_rate'}`, with the extra key
`'is_mock': True` present only on windows produced by the mock loop
(recorder.py lines 148-152 and 177-182). -/
structure SampleData where
  audio : List ℚ
  timestamp : ℚ
  sample_rate : ℕ
  is_mock : Option Bool := none
deriving DecidableEq, Repr

/-- Outcome of `queue.Queue.put` (blocking mode, as called by the pipeline):
either the item is appended, or the queue is full and the caller blocks,
still holding the item.  There is no error or silent-drop outcome. -/
inductive PutResult (α : Type) where
  | enqueued (queue : List α)
  | blocked (pending : α)
deriving DecidableEq, Repr

/-- `queue.Queue(maxsize).put(x)` with default `block=True`. -/
def Queue.put {α : Type} (maxsize : ℕ) (q : List α) (x : α) : PutResult α :=
  if q.length < maxsize then .enqueued (q ++ [x]) else .blocked x

/-- main.py line 24: `self.samples_queue = Queue(maxsize=100)`. -/
def samplesQueueMaxsize : ℕ := 100

/-- main.py line 25: `self.detections_queue = Queue(maxsize=100)`. -/
def detectionsQueueMaxsize : ℕ := 100

/-- The capture stage's enqueue `self.samples_queue.put({...})`
(recorder.py line 148), a blocking put on the bounded windows queue. -/
def RecorderWorker.enqueue (q : List SampleData) (w : SampleData) : PutResult SampleData :=
  Queue.put samplesQueueMaxsize q w

/-- One iteration of `RecorderWorker._run_real_audio` (recorder.py lines
124-153) after a successful chunk read: push the chunk, and when the
sampling interval has elapsed and the buffer is ready, seal a window (no
`is_mock` key) and reset the interval timer.  Returns the new buffer, the
emitted window (if any) and the new `last_sample_time`. -/
def RecorderWorker.realStep (cfg : ListenerConfig) (b : AudioBuffer) (chunk : List ℚ)
    (last_sample_time now : ℚ) : AudioBuffer × Option SampleData × ℚ :=
  let b2 := b.add_chunk chunk
  if (cfg.sample_duration : ℚ) ≤ now - last_sample_time ∧ b2.is_ready = true then
    match (b2.get_sample).1 with
    | some sample =>
        (b2, some { audio := sample, timestamp := now, sample_rate := cfg.sample_rate }, now)
    | none => (b2, none, last_sample_time)
  else (b2, none, last_sample_time)

/-- One iteration of `RecorderWorker._run_mock_audio` (recorder.py lines
164-183): when the sampling interval has elapsed, emit a window of
`sample_rate * sample_duration` freshly generated noise samples flagged
`is_mock := True`.  `randNormal n` stands for the random draw
`np.random.normal(0, 0.01, n)`. -/
def RecorderWorker.mockStep (cfg : ListenerConfig) (randNormal : ℕ → List ℚ)
    (last_sample_time now : ℚ) : Option SampleData × ℚ :=
  if (cfg.sample_duration : ℚ) ≤ now - last_sample_time then
    (some { audio := randNormal (cfg.sample_rate * cfg.sample_duration),
            timestamp := now, sample_rate := cfg.sample_rate, is_mock := some true }, now)
  else (none, last_sample_time)

/-- One loop iteration of `RecorderWorker.run` (recorder.py lines 99-117):
when `setup_audio` succeeded (`audio_available = true`) the real loop runs,
otherwise the mock loop substitutes synthetic audio. -/
def RecorderWorker.runStep (cfg : ListenerConfig) (audio_available : Bool)
    (randNormal : ℕ → List ℚ) (b : AudioBuffer) (chunk : List ℚ)
    (last_sample_time now : ℚ) : AudioBuffer × Option SampleData × ℚ :=
  if audio_available then
    RecorderWorker.realStep cfg b chunk last_sample_time now
  else
    ((b, (RecorderWorker.mockStep cfg randNormal last_sample_time now).1,
      (RecorderWorker.mockStep cfg randNormal last_sample_time now).2))

/-! ## analyzer.py -/

/-- A detection record returned by the external birdnetlib classifier
(analyzer.py lines 88-95 read its `scientific_name`, `confidence`,
`start_time` and `end_time` fields). -/
structure ClassifierDetection where
  scientific_name : String
  common_name : String
  confidence : ℚ
  start_time : ℚ
  end_time : ℚ
deriving DecidableEq, Repr

/-- The detection dict returned by `BirdNETAnalyzer.analyze`
(analyzer.py lines 49-55). -/
structure AnalyzedDetection where
  species : String
  confidence : ℚ
  start_time : ℚ
  end_time : ℚ
deriving DecidableEq, Repr

/-- Which classifier backs the analyzer (analyzer.py `_init_model`):
`real` wraps the external birdnetlib capability (whose invocation may
raise, modelled as `Except`), `mock` is the energy-based stub used when
birdnetlib is absent. -/
inductive AnalyzerMode where
  | real (classify : List ℚ → ℚ → Except String (List ClassifierDetection))
  | mock

/-- analyzer.py lines 119-125. -/
def BirdNETAnalyzer.mock_species : List String :=
  ["American Robin", "Black-capped Chickadee", "Common Grackle",
   "Northern Cardinal", "Blue Jay"]

/-- `r` is the RMS energy `np.sqrt(np.mean(audio ** 2))` of `audio`
(analyzer.py line 116): the square root is irrational in general, so the
analyzer model takes it as an explicit argument tied to the audio by this
predicate. -/
def IsRms (audio : List ℚ) (r : ℚ) : Prop :=
  0 ≤ r ∧ r ^ 2 * audio.length = (audio.map fun x => x ^ 2).sum

/-- `BirdNETAnalyzer._mock_analyze` (analyzer.py lines 110-144): a single
pseudo-detection when the RMS energy exceeds 0.01, with confidence
`min(0.99, 0.5 + rms * 10)`, species picked from `mock_species` by
`int(rms * 1000) % 5`, spanning the whole window.  It never consults the
configured `min_confidence`. -/
def BirdNETAnalyzer.mock_analyze (rms : ℚ) (audioLen : ℕ) (sample_rate : ℚ) :
    List AnalyzedDetection :=
  if 1/100 < rms then
    [{ species := BirdNETAnalyzer.mock_species.getD
         ((⌊rms * 1000⌋).toNat % BirdNETAnalyzer.mock_species.length) ""
       confidence := min (99/100) (1/2 + rms * 10)
       start_time := 0
       end_time := (audioLen : ℚ) / sample_rate }]
  else []

/-- `BirdNETAnalyzer.analyze` (analyzer.py lines 40-108): mock mode
delegates to the stub; real mode invokes the external classifier and keeps
the detections with `confidence >= min_confidence`, reading the species
from the record's `scientific_name`.  Any exception is caught at this
boundary and yields `[]` (lines 106-108). -/
def BirdNETAnalyzer.analyze (cfg : ListenerConfig) (mode : AnalyzerMode)
    (audio : List ℚ) (sample_rate : ℚ) (rms : ℚ) : List AnalyzedDetection :=
  match mode with
  | .mock => BirdNETAnalyzer.mock_analyze rms audio.length sample_rate
  | .real classify =>
    match classify audio sample_rate with
    | .error _ => []
    | .ok recs =>
      (recs.filter fun d => decide (cfg.min_confidence ≤ d.confidence)).map fun d =>
        { species := d.scientific_name, confidence := d.confidence,
          start_time := d.start_time, end_time := d.end_time }

/-- The per-window body of `AnalyzerWorker.run` (analyzer.py lines 171-189):
analyze the window and enqueue one detections-queue item per detection,
carrying the window's capture timestamp and the detection's start/end span
through unchanged. -/
def AnalyzerWorker.processSample (cfg : ListenerConfig) (mode : AnalyzerMode)
    (sd : SampleData) (rms : ℚ) : List DetectionData :=
  (BirdNETAnalyzer.analyze cfg mode sd.audio (sd.sample_rate : ℚ) rms).map fun d =>
    { species := d.species, confidence := d.confidence, timestamp := sd.timestamp,
      start_time := d.start_time, end_time := d.end_time }

/-- `AnalyzerWorker.run` over a finite stream of dequeued windows (each with
its RMS energy): windows are processed independently, in arrival order. -/
def AnalyzerWorker.run (cfg : ListenerConfig) (mode : AnalyzerMode)
    (samples : List (SampleData × ℚ)) : List DetectionData :=
  samples.flatMap fun p => AnalyzerWorker.processSample cfg mode p.1 p.2

def isLowerAlpha (c : Char) : Bool := decide ('a' ≤ c) && decide (c ≤ 'z')

def isUpperAlpha (c : Char) : Bool := decide ('A' ≤ c) && decide (c ≤ 'Z')

/-- Splits a character list on spaces (accumulator holds the current word
reversed). -/
def splitWords : List Char → List Char → List (List Char)
  | [], acc => [acc.reverse]
  | ' ' :: cs, acc => acc.reverse :: splitWords cs []
  | c :: cs, acc => splitWords cs (c :: acc)

/-- Modelled from the spec: "species label normalized to the canonical
scientific identifier".  A canonical scientific (binomial) identifier is
"Genus epithet": two space-separated words, the genus capitalized with a
lowercase remainder and the specific epithet entirely lowercase. -/
def isCanonicalScientificName (s : String) : Bool :=
  match splitWords s.toList [] with
  | [g, e] =>
    (match g with
     | c :: rest => isUpperAlpha c && rest.all isLowerAlpha
     | [] => false)
    && !e.isEmpty && e.all isLowerAlpha
  | _ => false

/-! ## main.py: shutdown -/

/-- An externally visible action of `ListenerService.stop`. -/
inductive StopAction where
  | logMsg (msg : String)
  | setRunningFalse (worker : String)
  | putSentinel (queue : String)
  | joinTimeout (thread : String) (timeout : ℕ)
deriving DecidableEq, Repr

def StopAction.isLog : StopAction → Bool
  | .logMsg _ => true
  | _ => false

/-- A thread as seen by `stop`: its name, daemon flag, and whether it is
alive when the join loop reaches it. -/
structure ThreadInfo where
  name : String
  daemon : Bool
  alive : Bool
deriving DecidableEq, Repr

/-- `ListenerService.stop` (main.py lines 109-132) as the list of actions it
performs in program order: log, clear the service and worker stop flags,
enqueue one `None` sentinel per analyzer on the samples queue and one on the
detections queue, `join(timeout=5)` each non-daemon live thread, then log
completion.  `exits` records, for each thread, whether it exits within its
join timeout; the source never inspects the join's outcome, so the trace
does not depend on it. -/
def ListenerService.stop (num_workers : ℕ) (threads : List ThreadInfo)
    (_exits : String → Bool) : List StopAction :=
  [.logMsg "Stopping all workers...", .setRunningFalse "service", .setRunningFalse "recorder"]
  ++ (List.range num_workers).flatMap (fun i =>
      [.setRunningFalse ("analyzer-" ++ toString i), .putSentinel "samples_queue"])
  ++ [.setRunningFalse "db_writer", .putSentinel "detections_queue"]
  ++ ((threads.filter fun t => !t.daemon && t.alive).map fun t => .joinTimeout t.name 5)
  ++ [.logMsg "All workers stopped"]

/-- The thread set of a default run (main.py `start`, lines 58-97): the
recorder, two analyzers and the db writer are non-daemon; the API server
thread is a daemon. -/
def demoThreads : List ThreadInfo :=
  [⟨"RecorderWorker", false, true⟩, ⟨"AnalyzerWorker-1", false, true⟩,
   ⟨"AnalyzerWorker-2", false, true⟩, ⟨"DbWriterWorker", false, true⟩,
   ⟨"APIServer", true, true⟩]

/-- A small buffer for concrete instances: capacity 2 × 3 = 6,
window size 2 × 1 = 2. -/
def demoBuffer : AudioBuffer := ⟨2, 3, 1, []⟩

def demoChunks : List (List ℚ) := [[1, 2, 3, 4], [5, 6, 7]]

end MagPi

namespace MagPi

/-! ## Helper lemmas: persistence stage -/

theorem writeStep_eq_append (cfg : ListenerConfig) (db : List DbRow)
    (item : DetectionData × ℚ) :
    DbWriterWorker.writeStep cfg db item =
      db ++ (if DetectionDatabase.check_duplicate db item.1.species
                cfg.duplicate_window item.2 then [] else [DbWriterWorker.mkRow cfg item.1]) := by
  unfold DbWriterWorker.writeStep
  split <;> simp

theorem run_cons (cfg : ListenerConfig) (db : List DbRow) (item : DetectionData × ℚ)
    (items : List (DetectionData × ℚ)) :
    DbWriterWorker.run cfg db (item :: items) =
      DbWriterWorker.run cfg (DbWriterWorker.writeStep cfg db item) items := rfl

theorem run_eq_append (cfg : ListenerConfig) :
    ∀ (items : List (DetectionData × ℚ)) (db : List DbRow),
      DbWriterWorker.run cfg db items = db ++ DbWriterWorker.newRows cfg db items := by
  intro items
  induction items with
  | nil => intro db; simp [DbWriterWorker.run, DbWriterWorker.newRows]
  | cons item rest ih =>
    intro db
    rw [DbWriterWorker.newRows, run_cons, ih, writeStep_eq_append]
    split <;> simp

theorem newRows_cons (cfg : ListenerConfig) (db : List DbRow) (item : DetectionData × ℚ)
    (items : List (DetectionData × ℚ)) :
    DbWriterWorker.newRows cfg db (item :: items) =
      (if DetectionDatabase.check_duplicate db item.1.species
          cfg.duplicate_window item.2 then [] else [DbWriterWorker.mkRow cfg item.1])
        ++ DbWriterWorker.newRows cfg (DbWriterWorker.writeStep cfg db item) items := by
  have h1 := run_eq_append cfg (item :: items) db
  rw [run_cons, run_eq_append cfg items, writeStep_eq_append] at h1
  rw [DbWriterWorker.newRows, run_cons, run_eq_append cfg items, writeStep_eq_append]
  simp

theorem check_duplicate_eq_false_iff (db : List DbRow) (species : String)
    (w now : ℚ) :
    DetectionDatabase.check_duplicate db species w now = false ↔
      ∀ r ∈ db, r.species = species → r.timestamp < now - w := by
  unfold DetectionDatabase.check_duplicate
  simp only [List.any_eq_false, Bool.and_eq_true, beq_iff_eq, decide_eq_true_eq, not_and,
    not_le]

/-- Every row inserted during a run whose items are processed at their own
capture timestamps is more than `duplicate_window` seconds after every row of
the same species already present when the run segment started. -/
theorem newRows_gap (cfg : ListenerConfig) :
    ∀ (items : List (DetectionData × ℚ)) (db : List DbRow),
      (∀ p ∈ items, p.2 = p.1.timestamp) →
      ∀ r0 ∈ db, ∀ r ∈ DbWriterWorker.newRows cfg db items,
        r.species = r0.species → cfg.duplicate_window < r.timestamp - r0.timestamp := by
  intro items
  induction items with
  | nil =>
    intro db _ r0 _ r hr
    simp [DbWriterWorker.newRows, DbWriterWorker.run] at hr
  | cons item rest ih =>
    intro db hnow r0 hr0 r hr hspec
    rw [newRows_cons] at hr
    have hnow_head : item.2 = item.1.timestamp := hnow item (List.mem_cons_self _ _)
    have hnow_rest : ∀ p ∈ rest, p.2 = p.1.timestamp :=
      fun p hp => hnow p (List.mem_cons_of_mem _ hp)
    rcases List.mem_append.mp hr with hins | hrest
    · -- r is the row inserted for the head item
      have hdup : DetectionDatabase.check_duplicate db item.1.species
          cfg.duplicate_window item.2 = false := by
        by_contra hc
        rw [Bool.not_eq_false] at hc
        rw [hc] at hins
        simp at hins
      rw [hdup] at hins
      simp at hins
      have hsp : r0.species = item.1.species := by
        rw [← hspec, hins]; rfl
      have h2 : r0.timestamp < item.2 - cfg.duplicate_window :=
        (check_duplicate_eq_false_iff _ _ _ _).mp hdup r0 hr0 hsp
      have h3 : r.timestamp = item.1.timestamp := by rw [hins]; rfl
      rw [h3, ← hnow_head]
      linarith
    · -- r was inserted while processing the rest
      have hdb' : r0 ∈ DbWriterWorker.writeStep cfg db item := by
        rw [writeStep_eq_append]
        exact List.mem_append_left _ hr0
      exact ih (DbWriterWorker.writeStep cfg db item) hnow_rest r0 hdb' r hrest hspec

/-- The rows inserted during one run are pairwise more than
`duplicate_window` seconds apart per species (in insertion order). -/
theorem newRows_pairwise (cfg : ListenerConfig) :
    ∀ (items : List (DetectionData × ℚ)) (db : List DbRow),
      (∀ p ∈ items, p.2 = p.1.timestamp) →
      List.Pairwise (fun r1 r2 : DbRow =>
        r2.species = r1.species → cfg.duplicate_window < r2.timestamp - r1.timestamp)
        (DbWriterWorker.newRows cfg db items) := by
  intro items
  induction items with
  | nil =>
    intro db _
    simp [DbWriterWorker.newRows, DbWriterWorker.run]
  | cons item rest ih =>
    intro db hnow
    have hnow_rest : ∀ p ∈ rest, p.2 = p.1.timestamp :=
      fun p hp => hnow p (List.mem_cons_of_mem _ hp)
    rw [newRows_cons]
    by_cases hdup : DetectionDatabase.check_duplicate db item.1.species
        cfg.duplicate_window item.2 = true
    · rw [if_pos hdup]
      simpa using ih (DbWriterWorker.writeStep cfg db item) hnow_rest
    · rw [Bool.not_eq_true] at hdup
      rw [if_neg (by simp [hdup])]
      simp only [List.singleton_append, List.pairwise_cons]
      constructor
      · intro r hrest hspec
        have hmem : DbWriterWorker.mkRow cfg item.1 ∈ DbWriterWorker.writeStep cfg db item := by
          rw [writeStep_eq_append, hdup]
          simp
        exact newRows_gap cfg rest (DbWriterWorker.writeStep cfg db item) hnow_rest
          (DbWriterWorker.mkRow cfg item.1) hmem r hrest hspec
      · exact ih (DbWriterWorker.writeStep cfg db item) hnow_rest

theorem pairwise_filter_length_le_one (W : ℚ) (S : String) (a : ℚ) (l : List DbRow)
    (hp : List.Pairwise (fun r1 r2 : DbRow =>
      r2.species = r1.species → W < r2.timestamp - r1.timestamp) l) :
    (l.filter fun r => r.species == S && decide (a ≤ r.timestamp)
        && decide (r.timestamp ≤ a + W)).length ≤ 1 := by
  set p : DbRow → Bool := fun r => r.species == S && decide (a ≤ r.timestamp)
      && decide (r.timestamp ≤ a + W) with hp_def
  have hfp : List.Pairwise (fun r1 r2 : DbRow =>
      r2.species = r1.species → W < r2.timestamp - r1.timestamp) (l.filter p) :=
    hp.sublist (List.filter_sublist l)
  cases hF : l.filter p with
  | nil => simp [hF]
  | cons x xs =>
    cases xs with
    | nil => simp [hF]
    | cons y t =>
      exfalso
      rw [hF] at hfp
      have hxy := (List.pairwise_cons.mp hfp).1 y (List.mem_cons_self _ _)
      have hx : p x = true := List.of_mem_filter (l := l) (by rw [hF]; exact List.mem_cons_self _ _)
      have hy : p y = true := List.of_mem_filter (l := l)
        (by rw [hF]; exact List.mem_cons_of_mem _ (List.mem_cons_self _ _))
      rw [hp_def] at hx hy
      simp only [Bool.and_eq_true, beq_iff_eq, decide_eq_true_eq] at hx hy
      have hsp : y.species = x.species := by rw [hx.1.1, hy.1.1]
      have hgap := hxy hsp
      linarith [hx.1.2, hx.2, hy.1.2, hy.2]

theorem run_two_fresh (cfg : ListenerConfig) (db : List DbRow) (d1 d2 : DetectionData)
    (S : String) (h1 : d1.species = S) (h2 : d2.species = S)
    (hdb : ∀ r ∈ db, r.species ≠ S) :
    DbWriterWorker.run cfg db [(d1, d1.timestamp), (d2, d2.timestamp)] =
      if d2.timestamp - d1.timestamp ≤ cfg.duplicate_window then
        db ++ [DbWriterWorker.mkRow cfg d1]
      else db ++ [DbWriterWorker.mkRow cfg d1, DbWriterWorker.mkRow cfg d2] := by
  have hc1 : DetectionDatabase.check_duplicate db d1.species
      cfg.duplicate_window d1.timestamp = false := by
    rw [check_duplicate_eq_false_iff]
    intro r hr hs
    exact absurd (hs.trans h1) (hdb r hr)
  have hstep1 : DbWriterWorker.writeStep cfg db (d1, d1.timestamp) =
      db ++ [DbWriterWorker.mkRow cfg d1] := by
    unfold DbWriterWorker.writeStep
    simp [hc1]
  have hdbany : db.any (fun r => r.species == d2.species
      && decide (d2.timestamp - cfg.duplicate_window ≤ r.timestamp)) = false := by
    rw [List.any_eq_false]
    intro r hr
    simp only [Bool.and_eq_true, beq_iff_eq, decide_eq_true_eq, not_and]
    intro hs
    exact absurd (hs.trans h2) (hdb r hr)
  have hc2 : DetectionDatabase.check_duplicate (db ++ [DbWriterWorker.mkRow cfg d1])
      d2.species cfg.duplicate_window d2.timestamp =
      decide (d2.timestamp - cfg.duplicate_window ≤ d1.timestamp) := by
    unfold DetectionDatabase.check_duplicate
    rw [List.any_append, hdbany]
    simp [DbWriterWorker.mkRow, h1, h2]
  unfold DbWriterWorker.run
  simp only [List.foldl_cons, List.foldl_nil, hstep1]
  unfold DbWriterWorker.writeStep
  by_cases hw : d2.timestamp - d1.timestamp ≤ cfg.duplicate_window
  · rw [if_pos hw]
    have : d2.timestamp - cfg.duplicate_window ≤ d1.timestamp := by linarith
    simp [hc2, this]
  · rw [if_neg hw]
    have : ¬(d2.timestamp - cfg.duplicate_window ≤ d1.timestamp) := by
      intro h; exact hw (by linarith)
    simp [hc2, this]

/-- C1: for every run of the persistence stage, within any closed interval of
`duplicate_window` seconds at most one detection per species is inserted (for
items processed at their capture timestamps); two detections of the same
species spaced more than `duplicate_window` seconds apart are both persisted;
and the concrete scenario of spec §8 (window 30 s, "Turdus migratorius" at
t = 0, 10, 40) ends with exactly the two rows at t = 0 and t = 40. -/
theorem claim_C1_dedup_window (cfg : ListenerConfig) (db : List DbRow)
    (items : List (DetectionData × ℚ)) (S : String) (a : ℚ)
    (hnow : ∀ p ∈ items, p.2 = p.1.timestamp) :
    ((DbWriterWorker.newRows cfg db items).filter fun r =>
        r.species == S && decide (a ≤ r.timestamp)
          && decide (r.timestamp ≤ a + cfg.duplicate_window)).length ≤ 1
    ∧ (∀ d1 d2 : DetectionData, d1.species = S → d2.species = S →
        (∀ r ∈ db, r.species ≠ S) →
        cfg.duplicate_window < d2.timestamp - d1.timestamp →
        DbWriterWorker.run cfg db [(d1, d1.timestamp), (d2, d2.timestamp)] =
          db ++ [DbWriterWorker.mkRow cfg d1, DbWriterWorker.mkRow cfg d2])
    ∧ (DbWriterWorker.run defaultConfig [] demoItems).map
        (fun r => (r.species, r.timestamp)) = [(robin, 0), (robin, 40)] := by
  refine ⟨?_, ?_, ?_⟩
  · exact pairwise_filter_length_le_one cfg.duplicate_window S a _
      (newRows_pairwise cfg items db hnow)
  · intro d1 d2 h1 h2 hdb hgap
    rw [run_two_fresh cfg db d1 d2 S h1 h2 hdb, if_neg (by linarith)]
  · norm_num [DbWriterWorker.run, demoItems, DbWriterWorker.writeStep,
      DetectionDatabase.check_duplicate, DbWriterWorker.mkRow, defaultConfig]

theorem claim_C1_dedup_window_witness :
    ((DbWriterWorker.newRows defaultConfig [] demoItems).filter fun r =>
        r.species == robin && decide ((0 : ℚ) ≤ r.timestamp)
          && decide (r.timestamp ≤ 0 + defaultConfig.duplicate_window)).length ≤ 1
    ∧ (DbWriterWorker.run defaultConfig [] demoItems).map
        (fun r => (r.species, r.timestamp)) = [(robin, 0), (robin, 40)] :=
  ⟨(claim_C1_dedup_window defaultConfig [] demoItems robin 0
      (by norm_num [demoItems])).1,
   (claim_C1_dedup_window defaultConfig [] demoItems robin 0
      (by norm_num [demoItems])).2.2⟩

/-- C10: duplicate suppression is first-wins and confidence-blind — with a
same-species pair processed within the dedup window, the first detection is
kept (with its own confidence) and the second discarded for all confidence
values, and `check_duplicate` is invariant under arbitrary modification of
the stored confidences (it consults only species and time). -/
theorem claim_C10_first_wins (cfg : ListenerConfig) (db : List DbRow) (S : String)
    (d1 d2 : DetectionData) (h1 : d1.species = S) (h2 : d2.species = S)
    (hdb : ∀ r ∈ db, r.species ≠ S)
    (hwin : d2.timestamp - d1.timestamp ≤ cfg.duplicate_window) :
    DbWriterWorker.run cfg db [(d1, d1.timestamp), (d2, d2.timestamp)] =
      db ++ [DbWriterWorker.mkRow cfg d1]
    ∧ ∀ (db2 : List DbRow) (f : DbRow → ℚ) (sp : String) (w now : ℚ),
        DetectionDatabase.check_duplicate (db2.map fun r => { r with confidence := f r })
          sp w now = DetectionDatabase.check_duplicate db2 sp w now := by
  refine ⟨?_, ?_⟩
  · rw [run_two_fresh cfg db d1 d2 S h1 h2 hdb, if_pos hwin]
  · intro db2 f sp w now
    unfold DetectionDatabase.check_duplicate
    rw [List.any_map]
    rfl

/-! ## Helper lemmas: sliding-window buffer -/

theorem length_rtake (l : List ℚ) (n : ℕ) : (l.rtake n).length = min n l.length := by
  simp only [List.rtake, List.length_drop]
  omega

theorem rtake_of_length_le (l : List ℚ) (n : ℕ) (h : l.length ≤ n) : l.rtake n = l := by
  simp [List.rtake, Nat.sub_eq_zero_of_le h]

theorem dequeAppend_eq_rtake (m : ℕ) (buf : List ℚ) (x : ℚ) :
    dequeAppend m buf x = (buf ++ [x]).rtake m := by
  simp [dequeAppend, List.rtake]

theorem rtake_append_rtake (m : ℕ) (a c : List ℚ) :
    ((a.rtake m) ++ c).rtake m = (a ++ c).rtake m := by
  rw [List.rtake_eq_reverse_take_reverse (l := a.rtake m ++ c),
    List.rtake_eq_reverse_take_reverse (l := a ++ c),
    List.rtake_eq_reverse_take_reverse (l := a)]
  rw [List.reverse_append, List.reverse_append, List.reverse_reverse]
  rw [List.take_append_eq_append_take, List.take_append_eq_append_take, List.take_take]
  rw [Nat.min_eq_left (Nat.sub_le _ _)]

theorem foldl_dequeAppend (m : ℕ) :
    ∀ (l : List ℚ) (buf : List ℚ), buf.length ≤ m →
      l.foldl (dequeAppend m) buf = (buf ++ l).rtake m := by
  intro l
  induction l with
  | nil => intro buf h; simp [rtake_of_length_le buf m h]
  | cons x xs ih =>
    intro buf h
    rw [List.foldl_cons, dequeAppend_eq_rtake]
    have hlen : ((buf ++ [x]).rtake m).length ≤ m := by
      rw [length_rtake]; exact min_le_left _ _
    rw [ih _ hlen, rtake_append_rtake]
    simp

theorem add_chunk_buffer (b : AudioBuffer) (chunk : List ℚ)
    (h : b.buffer.length ≤ b.buffer_size) :
    (b.add_chunk chunk).buffer = (b.buffer ++ chunk).rtake b.buffer_size :=
  foldl_dequeAppend b.buffer_size chunk b.buffer h

theorem add_chunk_buffer_size (b : AudioBuffer) (chunk : List ℚ) :
    (b.add_chunk chunk).buffer_size = b.buffer_size := rfl

theorem pushAll_buffer (chunks : List (List ℚ)) :
    ∀ (b : AudioBuffer), b.buffer.length ≤ b.buffer_size →
      (b.pushAll chunks).buffer = (b.buffer ++ chunks.flatten).rtake b.buffer_size := by
  induction chunks with
  | nil =>
    intro b h
    simpa [AudioBuffer.pushAll] using (rtake_of_length_le b.buffer b.buffer_size h).symm
  | cons c cs ih =>
    intro b h
    have hstep : (b.add_chunk c).buffer = (b.buffer ++ c).rtake b.buffer_size :=
      add_chunk_buffer b c h
    have hlen : (b.add_chunk c).buffer.length ≤ (b.add_chunk c).buffer_size := by
      rw [add_chunk_buffer_size, hstep, length_rtake]
      exact min_le_left _ _
    have hrec := ih (b.add_chunk c) hlen
    have hps : b.pushAll (c :: cs) = (b.add_chunk c).pushAll cs := rfl
    rw [hps, hrec, add_chunk_buffer_size, hstep, rtake_append_rtake]
    simp

/-- C2: the buffer's occupancy never exceeds its capacity
`sample_rate × buffer_duration`; after any sequence of pushed chunks the
buffer holds exactly the trailing capacity-many samples of
(old contents ++ pushed samples) — i.e. overflow evicts a prefix (the
oldest samples, strict FIFO) — and whenever the newly pushed samples fit in
the capacity they are all retained, as a suffix of the buffer. -/
theorem claim_C2_buffer_capacity_fifo (b : AudioBuffer) (chunks : List (List ℚ))
    (h : b.buffer.length ≤ b.buffer_size) :
    (b.pushAll chunks).buffer.length ≤ b.buffer_size
    ∧ (b.pushAll chunks).buffer = (b.buffer ++ chunks.flatten).rtake b.buffer_size
    ∧ (∃ k, (b.pushAll chunks).buffer = (b.buffer ++ chunks.flatten).drop k)
    ∧ (chunks.flatten.length ≤ b.buffer_size →
        chunks.flatten <:+ (b.pushAll chunks).buffer) := by
  have hmain := pushAll_buffer chunks b h
  refine ⟨?_, hmain, ?_, ?_⟩
  · rw [hmain, length_rtake]
    exact min_le_left _ _
  · exact ⟨(b.buffer ++ chunks.flatten).length - b.buffer_size, hmain⟩
  · intro hfit
    rw [hmain]
    by_cases hle : (b.buffer ++ chunks.flatten).length ≤ b.buffer_size
    · rw [rtake_of_length_le _ _ hle]
      exact List.suffix_append b.buffer chunks.flatten
    · rw [List.rtake]
      have hk : (b.buffer ++ chunks.flatten).length - b.buffer_size ≤ b.buffer.length := by
        rw [List.length_append]
        omega
      rw [List.drop_append_of_le_length hk]
      exact ⟨_, rfl⟩

theorem claim_C2_buffer_capacity_fifo_witness :
    (demoBuffer.pushAll demoChunks).buffer.length ≤ demoBuffer.buffer_size
    ∧ (demoBuffer.pushAll demoChunks).buffer =
        (demoBuffer.buffer ++ demoChunks.flatten).rtake demoBuffer.buffer_size :=
  ⟨(claim_C2_buffer_capacity_fifo demoBuffer demoChunks (by norm_num [demoBuffer])).1,
   (claim_C2_buffer_capacity_fifo demoBuffer demoChunks (by norm_num [demoBuffer])).2.1⟩

/-- C3: `get_sample` returns a window exactly when the buffer holds at
least `sample_size = sample_rate × sample_duration` samples; the window is
precisely the most recent `sample_size` samples in order; with fewer
samples it returns `None`; and the call leaves the buffer unchanged. -/
theorem claim_C3_get_sample (b : AudioBuffer) (h : 0 < b.sample_size) :
    ((b.get_sample).1.isSome ↔ b.sample_size ≤ b.buffer.length)
    ∧ (∀ w, (b.get_sample).1 = some w →
        w = b.buffer.rtake b.sample_size ∧ w.length = b.sample_size)
    ∧ (b.buffer.length < b.sample_size → (b.get_sample).1 = none)
    ∧ (b.get_sample).2 = b := by
  unfold AudioBuffer.get_sample
  by_cases hc : b.sample_size ≤ b.buffer.length
  · rw [if_pos hc]
    refine ⟨by simp [hc], ?_, by omega, rfl⟩
    intro w hw
    simp only [Option.some.injEq] at hw
    have hpt : pyTakeLast b.buffer b.sample_size = b.buffer.rtake b.sample_size := by
      unfold pyTakeLast
      rw [if_neg (by omega)]
      rfl
    rw [← hw, hpt]
    refine ⟨rfl, ?_⟩
    rw [length_rtake]
    omega
  · rw [if_neg hc]
    exact ⟨by simp [hc], by simp, fun _ => rfl, rfl⟩

theorem claim_C3_get_sample_witness :
    (((⟨2, 3, 1, [5, 6, 7]⟩ : AudioBuffer).get_sample).1.isSome ↔
      (⟨2, 3, 1, [5, 6, 7]⟩ : AudioBuffer).sample_size ≤
        (⟨2, 3, 1, [5, 6, 7]⟩ : AudioBuffer).buffer.length)
    ∧ ((⟨2, 3, 1, [5, 6, 7]⟩ : AudioBuffer).get_sample).2 = ⟨2, 3, 1, [5, 6, 7]⟩ :=
  ⟨(claim_C3_get_sample ⟨2, 3, 1, [5, 6, 7]⟩ (by norm_num [AudioBuffer.sample_size])).1,
   (claim_C3_get_sample ⟨2, 3, 1, [5, 6, 7]⟩
      (by norm_num [AudioBuffer.sample_size])).2.2.2⟩

/-- C5: with the windows queue at its capacity of 100, the capture stage's
blocking put does not raise and does not drop the window — it blocks,
retaining the window; once one slot frees (a consumer dequeues), the same
put succeeds and appends the window; and every put either blocks (full)
or appends — there is no other outcome. -/
theorem claim_C5_full_queue_blocks (q : List SampleData) (w : SampleData)
    (h : q.length = 100) :
    RecorderWorker.enqueue q w = .blocked w
    ∧ (∀ y q2, q = y :: q2 → RecorderWorker.enqueue q2 w = .enqueued (q2 ++ [w]))
    ∧ (∀ q3 : List SampleData, q3.length < samplesQueueMaxsize →
        RecorderWorker.enqueue q3 w = .enqueued (q3 ++ [w]))
    ∧ (∀ (q4 : List SampleData) (x : SampleData),
        RecorderWorker.enqueue q4 x = .blocked x ∨
          RecorderWorker.enqueue q4 x = .enqueued (q4 ++ [x])) := by
  refine ⟨?_, ?_, ?_, ?_⟩
  · unfold RecorderWorker.enqueue Queue.put samplesQueueMaxsize
    rw [if_neg (by omega)]
  · intro y q2 hq
    have : q2.length = 99 := by
      have := congrArg List.length hq
      simp at this
      omega
    unfold RecorderWorker.enqueue Queue.put samplesQueueMaxsize
    rw [if_pos (by omega)]
  · intro q3 h3
    unfold RecorderWorker.enqueue Queue.put
    rw [if_pos h3]
  · intro q4 x
    unfold RecorderWorker.enqueue Queue.put
    by_cases hl : q4.length < samplesQueueMaxsize
    · right; rw [if_pos hl]
    · left; rw [if_neg hl]

theorem claim_C5_full_queue_blocks_witness :
    RecorderWorker.enqueue
        (List.replicate 100 ({ audio := [], timestamp := 0, sample_rate := 48000 } : SampleData))
        { audio := [], timestamp := 0, sample_rate := 48000 } =
      .blocked { audio := [], timestamp := 0, sample_rate := 48000 } :=
  (claim_C5_full_queue_blocks
      (List.replicate 100 { audio := [], timestamp := 0, sample_rate := 48000 })
      { audio := [], timestamp := 0, sample_rate := 48000 } (by simp)).1

theorem claim_C10_first_wins_witness :
    DbWriterWorker.run defaultConfig []
        [((⟨robin, 3/5, 0, 0, 3⟩ : DetectionData), 0),
         ((⟨robin, 99/100, 10, 0, 3⟩ : DetectionData), 10)] =
      [] ++ [DbWriterWorker.mkRow defaultConfig ⟨robin, 3/5, 0, 0, 3⟩] :=
  (claim_C10_first_wins defaultConfig [] robin ⟨robin, 3/5, 0, 0, 3⟩
      ⟨robin, 99/100, 10, 0, 3⟩ rfl rfl (by simp) (by norm_num [defaultConfig])).1

/-! ## Helper lemmas: analyzer -/

theorem getD_mem_of_lt {α : Type} :
    ∀ (l : List α) (i : ℕ), i < l.length → ∀ d : α, l.getD i d ∈ l := by
  intro l
  induction l with
  | nil => intro i hi; simp at hi
  | cons x xs ih =>
    intro i hi d
    cases i with
    | zero => simp
    | succ j =>
      simp only [List.getD_cons_succ]
      exact List.mem_cons_of_mem _ (ih j (by simpa using hi) d)

theorem mock_analyze_at_one_fiftieth :
    BirdNETAnalyzer.mock_analyze (1/50) 1 48000 =
      [{ species := "American Robin", confidence := 7/10,
         start_time := 0, end_time := 1/48000 }] := by
  unfold BirdNETAnalyzer.mock_analyze
  rw [if_pos (by norm_num)]
  have h20 : ((1 : ℚ)/50 * 1000) = 20 := by norm_num
  rw [h20]
  have hfloor : ⌊(20 : ℚ)⌋ = 20 := by norm_num
  rw [hfloor]
  rw [min_eq_right (by norm_num : (1 : ℚ)/2 + 1/50 * 10 ≤ 99/100)]
  norm_num [BirdNETAnalyzer.mock_species]
  rfl

theorem analyze_mock_eq (cfg : ListenerConfig) (audio : List ℚ) (sr rms : ℚ) :
    BirdNETAnalyzer.analyze cfg .mock audio sr rms =
      BirdNETAnalyzer.mock_analyze rms audio.length sr := rfl

theorem analyze_real_error (cfg : ListenerConfig)
    (classify : List ℚ → ℚ → Except String (List ClassifierDetection))
    (audio : List ℚ) (sr rms : ℚ) (msg : String)
    (h : classify audio sr = .error msg) :
    BirdNETAnalyzer.analyze cfg (.real classify) audio sr rms = [] := by
  have hm : BirdNETAnalyzer.analyze cfg (.real classify) audio sr rms =
      (match classify audio sr with
       | .error _ => []
       | .ok recs =>
         (recs.filter fun d => decide (cfg.min_confidence ≤ d.confidence)).map fun d =>
           { species := d.scientific_name, confidence := d.confidence,
             start_time := d.start_time, end_time := d.end_time }) := rfl
  rw [hm, h]

theorem analyze_real_ok (cfg : ListenerConfig)
    (classify : List ℚ → ℚ → Except String (List ClassifierDetection))
    (audio : List ℚ) (sr rms : ℚ) (recs : List ClassifierDetection)
    (h : classify audio sr = .ok recs) :
    BirdNETAnalyzer.analyze cfg (.real classify) audio sr rms =
      (recs.filter fun d => decide (cfg.min_confidence ≤ d.confidence)).map fun d =>
        { species := d.scientific_name, confidence := d.confidence,
          start_time := d.start_time, end_time := d.end_time } := by
  have hm : BirdNETAnalyzer.analyze cfg (.real classify) audio sr rms =
      (match classify audio sr with
       | .error _ => []
       | .ok recs =>
         (recs.filter fun d => decide (cfg.min_confidence ≤ d.confidence)).map fun d =>
           { species := d.scientific_name, confidence := d.confidence,
             start_time := d.start_time, end_time := d.end_time }) := rfl
  rw [hm, h]

/-- C4 fails as stated: with `min_confidence = 0.8`, the stub analyzer (which
never consults the threshold) enqueues a detection of confidence 0.7 for the
constant window `[0.02]` (whose RMS energy is exactly 0.02), and
0.7 < 0.8. -/
theorem claim_C4_counterexample :
    IsRms [1/50] (1/50)
    ∧ AnalyzerWorker.processSample { defaultConfig with min_confidence := 4/5 } .mock
        { audio := [1/50], timestamp := 0, sample_rate := 48000 } (1/50) =
      [{ species := "American Robin", confidence := 7/10, timestamp := 0,
         start_time := 0, end_time := 1/48000 }]
    ∧ (7/10 : ℚ) <
        ({ defaultConfig with min_confidence := 4/5 } : ListenerConfig).min_confidence := by
  refine ⟨⟨by norm_num, by simp⟩, ?_, by norm_num⟩
  unfold AnalyzerWorker.processSample BirdNETAnalyzer.analyze
  simp only [List.length_cons, List.length_nil]
  rw [show ((((48000 : ℕ) : ℚ))) = (48000 : ℚ) by norm_num]
  rw [mock_analyze_at_one_fiftieth]
  rfl

/-- C4 amended: in real-classifier mode no detection with confidence
strictly below `min_confidence` is ever enqueued and a detection with
confidence equal to the threshold is enqueued; in stub mode the threshold is
not consulted at all (the stub's output is independent of the configuration)
and stub confidences always lie in (0.6, 0.99], so stub detections are
enqueued below threshold exactly when `min_confidence` exceeds their
confidence. -/
theorem claim_C4_amended (cfg : ListenerConfig)
    (classify : List ℚ → ℚ → Except String (List ClassifierDetection))
    (samples : List (SampleData × ℚ)) :
    (∀ d ∈ AnalyzerWorker.run cfg (.real classify) samples,
        cfg.min_confidence ≤ d.confidence)
    ∧ (∀ (cd : ClassifierDetection) (sd : SampleData) (rms : ℚ),
        cd.confidence = cfg.min_confidence →
        AnalyzerWorker.processSample cfg (.real fun _ _ => .ok [cd]) sd rms =
          [{ species := cd.scientific_name, confidence := cd.confidence,
             timestamp := sd.timestamp, start_time := cd.start_time,
             end_time := cd.end_time }])
    ∧ (∀ (cfg2 : ListenerConfig) (sd : SampleData) (rms : ℚ),
        AnalyzerWorker.processSample cfg .mock sd rms =
          AnalyzerWorker.processSample cfg2 .mock sd rms)
    ∧ (∀ (rms : ℚ) (len : ℕ) (sr : ℚ), ∀ d ∈ BirdNETAnalyzer.mock_analyze rms len sr,
        3/5 < d.confidence ∧ d.confidence ≤ 99/100) := by
  refine ⟨?_, ?_, ?_, ?_⟩
  · intro d hd
    unfold AnalyzerWorker.run at hd
    obtain ⟨p, _, hp⟩ := List.mem_flatMap.mp hd
    unfold AnalyzerWorker.processSample at hp
    obtain ⟨a, ha, rfl⟩ := List.mem_map.mp hp
    cases hcl : classify p.1.audio (p.1.sample_rate : ℚ) with
    | error e =>
      rw [analyze_real_error cfg classify _ _ _ e hcl] at ha
      simp at ha
    | ok recs =>
      rw [analyze_real_ok cfg classify _ _ _ recs hcl] at ha
      obtain ⟨cd, hcd, rfl⟩ := List.mem_map.mp ha
      have := List.of_mem_filter hcd
      simpa using this
  · intro cd sd rms hcd
    unfold AnalyzerWorker.processSample
    rw [analyze_real_ok cfg _ _ _ _ [cd] rfl]
    rw [List.filter_cons_of_pos (by simp [hcd])]
    rfl
  · intro cfg2 sd rms
    rfl
  · intro rms len sr d hd
    unfold BirdNETAnalyzer.mock_analyze at hd
    by_cases hr : (1 : ℚ)/100 < rms
    · rw [if_pos hr] at hd
      simp only [List.mem_singleton] at hd
      subst hd
      constructor
      · exact lt_min (by norm_num) (by linarith)
      · exact min_le_left _ _
    · rw [if_neg hr] at hd
      simp at hd

theorem claim_C4_amended_witness :
    AnalyzerWorker.processSample defaultConfig
        (.real fun _ _ => .ok
          [{ scientific_name := robin, common_name := "American Robin",
             confidence := 1/2, start_time := 0, end_time := 3 }])
        { audio := [], timestamp := 7, sample_rate := 48000 } 0 =
      [{ species := robin, confidence := 1/2, timestamp := 7,
         start_time := 0, end_time := 3 }] :=
  (claim_C4_amended defaultConfig (fun _ _ => .ok []) []).2.1
    { scientific_name := robin, common_name := "American Robin",
      confidence := 1/2, start_time := 0, end_time := 3 }
    { audio := [], timestamp := 7, sample_rate := 48000 } 0 rfl

/-- C6: a window whose classification raises is caught at the per-window
boundary — `analyze` returns no detections for it — and the worker loop's
output on a stream beginning with that window is exactly its output on the
remaining windows: the failure contributes zero detections and processing
of subsequent windows is unaffected. -/
theorem claim_C6_classifier_exception_contained (cfg : ListenerConfig)
    (classify : List ℚ → ℚ → Except String (List ClassifierDetection))
    (sd : SampleData) (rms : ℚ) (msg : String) (rest : List (SampleData × ℚ))
    (hfail : classify sd.audio (sd.sample_rate : ℚ) = .error msg) :
    BirdNETAnalyzer.analyze cfg (.real classify) sd.audio (sd.sample_rate : ℚ) rms = []
    ∧ AnalyzerWorker.processSample cfg (.real classify) sd rms = []
    ∧ AnalyzerWorker.run cfg (.real classify) ((sd, rms) :: rest) =
        AnalyzerWorker.run cfg (.real classify) rest := by
  have h1 : BirdNETAnalyzer.analyze cfg (.real classify) sd.audio
      (sd.sample_rate : ℚ) rms = [] :=
    analyze_real_error cfg classify _ _ _ msg hfail
  have h2 : AnalyzerWorker.processSample cfg (.real classify) sd rms = [] := by
    unfold AnalyzerWorker.processSample
    rw [h1]
    rfl
  refine ⟨h1, h2, ?_⟩
  unfold AnalyzerWorker.run
  rw [List.flatMap_cons, h2]
  rfl

theorem claim_C6_classifier_exception_contained_witness :
    BirdNETAnalyzer.analyze defaultConfig
        (.real fun _ _ => .error "classifier crashed")
        ([] : List ℚ) ((48000 : ℕ) : ℚ) 0 = []
    ∧ AnalyzerWorker.run defaultConfig (.real fun _ _ => .error "classifier crashed")
        [({ audio := [], timestamp := 0, sample_rate := 48000 }, 0),
         ({ audio := [1], timestamp := 1, sample_rate := 48000 }, 1)] =
      AnalyzerWorker.run defaultConfig (.real fun _ _ => .error "classifier crashed")
        [({ audio := [1], timestamp := 1, sample_rate := 48000 }, 1)] :=
  ⟨(claim_C6_classifier_exception_contained defaultConfig
      (fun _ _ => .error "classifier crashed")
      { audio := [], timestamp := 0, sample_rate := 48000 } 0 "classifier crashed"
      [({ audio := [1], timestamp := 1, sample_rate := 48000 }, 1)] rfl).1,
   (claim_C6_classifier_exception_contained defaultConfig
      (fun _ _ => .error "classifier crashed")
      { audio := [], timestamp := 0, sample_rate := 48000 } 0 "classifier crashed"
      [({ audio := [1], timestamp := 1, sample_rate := 48000 }, 1)] rfl).2.2⟩

/-- C9 fails as stated: in stub mode the enqueued species label is the
hard-coded common name "American Robin", which is not a canonical
scientific (binomial) identifier — unlike, e.g., "Turdus migratorius". -/
theorem claim_C9_counterexample :
    (AnalyzerWorker.processSample defaultConfig .mock
        { audio := [1/50], timestamp := 0, sample_rate := 48000 } (1/50)).map
      DetectionData.species = ["American Robin"]
    ∧ isCanonicalScientificName "American Robin" = false
    ∧ isCanonicalScientificName robin = true := by
  refine ⟨?_, by decide, by decide⟩
  unfold AnalyzerWorker.processSample BirdNETAnalyzer.analyze
  simp only [List.length_cons, List.length_nil]
  rw [show ((((48000 : ℕ) : ℚ))) = (48000 : ℚ) by norm_num]
  rw [mock_analyze_at_one_fiftieth]
  rfl

/-- C9 amended: in both modes the window's capture timestamp and the
detection's start/end span are carried through to the enqueued item
unchanged; in real-classifier mode the species label is the classifier
record's canonical `scientific_name`; in stub mode it is one of five
hard-coded common names (not a scientific identifier). -/
theorem claim_C9_amended (cfg : ListenerConfig)
    (classify : List ℚ → ℚ → Except String (List ClassifierDetection))
    (sd : SampleData) (rms : ℚ) :
    (∀ d ∈ AnalyzerWorker.processSample cfg (.real classify) sd rms,
        d.timestamp = sd.timestamp ∧
        ∃ recs, classify sd.audio (sd.sample_rate : ℚ) = .ok recs ∧
          ∃ cd ∈ recs, d.species = cd.scientific_name ∧ d.confidence = cd.confidence ∧
            d.start_time = cd.start_time ∧ d.end_time = cd.end_time)
    ∧ (∀ d ∈ AnalyzerWorker.processSample cfg .mock sd rms,
        d.timestamp = sd.timestamp ∧ d.species ∈ BirdNETAnalyzer.mock_species ∧
        d.start_time = 0 ∧
        d.end_time = (sd.audio.length : ℚ) / (sd.sample_rate : ℚ)) := by
  constructor
  · intro d hd
    unfold AnalyzerWorker.processSample at hd
    obtain ⟨a, ha, rfl⟩ := List.mem_map.mp hd
    cases hcl : classify sd.audio (sd.sample_rate : ℚ) with
    | error e =>
      rw [analyze_real_error cfg classify _ _ _ e hcl] at ha
      simp at ha
    | ok recs =>
      rw [analyze_real_ok cfg classify _ _ _ recs hcl] at ha
      obtain ⟨cd, hcd, rfl⟩ := List.mem_map.mp ha
      exact ⟨rfl, recs, rfl, cd, List.mem_of_mem_filter hcd, rfl, rfl, rfl, rfl⟩

  · intro d hd
    unfold AnalyzerWorker.processSample at hd
    obtain ⟨a, ha, rfl⟩ := List.mem_map.mp hd
    rw [analyze_mock_eq] at ha
    unfold BirdNETAnalyzer.mock_analyze at ha
    by_cases hr : (1 : ℚ)/100 < rms
    · rw [if_pos hr] at ha
      simp only [List.mem_singleton] at ha
      subst ha
      refine ⟨rfl, ?_, rfl, rfl⟩
      exact getD_mem_of_lt _ _
        (Nat.mod_lt _ (by simp [BirdNETAnalyzer.mock_species])) _
    · rw [if_neg hr] at ha
      simp at ha

theorem claim_C9_amended_witness :
    ∀ d ∈ AnalyzerWorker.processSample defaultConfig .mock
        { audio := [1/50], timestamp := 11, sample_rate := 48000 } (1/50),
      d.timestamp = 11 ∧ d.species ∈ BirdNETAnalyzer.mock_species ∧
      d.start_time = 0 ∧ d.end_time = ((1 : ℕ) : ℚ) / ((48000 : ℕ) : ℚ) :=
  fun d hd =>
    (claim_C9_amended defaultConfig (fun _ _ => .ok [])
      { audio := [1/50], timestamp := 11, sample_rate := 48000 } (1/50)).2 d hd

/-- C8: when the audio source is unavailable at startup the capture stage
runs the mock loop instead of failing: at each elapsed sampling interval —
the same cadence gate as the real loop — it emits a window of
`sample_rate × sample_duration` synthetic noise samples carrying the
`is_mock = True` marker, and emits nothing otherwise; windows emitted by
the real-audio loop never carry the marker. -/
theorem claim_C8_synthetic_marked (cfg : ListenerConfig) (randNormal : ℕ → List ℚ)
    (hlen : ∀ n, (randNormal n).length = n) (b : AudioBuffer) (chunk : List ℚ)
    (last_sample_time now : ℚ) :
    (∀ w, (RecorderWorker.runStep cfg false randNormal b chunk
          last_sample_time now).2.1 = some w →
        w.is_mock = some true
        ∧ w.audio.length = cfg.sample_rate * cfg.sample_duration
        ∧ w.timestamp = now)
    ∧ ((RecorderWorker.runStep cfg false randNormal b chunk
          last_sample_time now).2.1.isSome
        ↔ (cfg.sample_duration : ℚ) ≤ now - last_sample_time)
    ∧ (∀ w, (RecorderWorker.runStep cfg true randNormal b chunk
          last_sample_time now).2.1 = some w →
        w.is_mock = none) := by
  have hfalse : RecorderWorker.runStep cfg false randNormal b chunk last_sample_time now =
      (b, (RecorderWorker.mockStep cfg randNormal last_sample_time now).1,
        (RecorderWorker.mockStep cfg randNormal last_sample_time now).2) := by
    unfold RecorderWorker.runStep
    rw [if_neg (by simp)]
  have htrue : RecorderWorker.runStep cfg true randNormal b chunk last_sample_time now =
      RecorderWorker.realStep cfg b chunk last_sample_time now := by
    unfold RecorderWorker.runStep
    rw [if_pos rfl]
  refine ⟨?_, ?_, ?_⟩
  · intro w hw
    rw [hfalse] at hw
    dsimp only at hw
    unfold RecorderWorker.mockStep at hw
    by_cases hc : (cfg.sample_duration : ℚ) ≤ now - last_sample_time
    · rw [if_pos hc] at hw
      dsimp only at hw
      simp only [Option.some.injEq] at hw
      subst hw
      exact ⟨rfl, hlen _, rfl⟩
    · rw [if_neg hc] at hw
      simp at hw
  · rw [hfalse]
    dsimp only
    unfold RecorderWorker.mockStep
    by_cases hc : (cfg.sample_duration : ℚ) ≤ now - last_sample_time
    · rw [if_pos hc]
      simpa using hc
    · rw [if_neg hc]
      simpa using hc
  · intro w hw
    rw [htrue] at hw
    simp only [RecorderWorker.realStep] at hw
    by_cases hc : (cfg.sample_duration : ℚ) ≤ now - last_sample_time
        ∧ (b.add_chunk chunk).is_ready = true
    · rw [if_pos hc] at hw
      cases hgs : ((b.add_chunk chunk).get_sample).1 with
      | some s =>
        rw [hgs] at hw
        dsimp only at hw
        simp only [Option.some.injEq] at hw
        subst hw
        rfl
      | none =>
        rw [hgs] at hw
        simp at hw
    · rw [if_neg hc] at hw
      simp at hw

theorem claim_C8_synthetic_marked_witness :
    (RecorderWorker.runStep defaultConfig false (fun n => List.replicate n 0)
        demoBuffer [] 0 5).2.1.isSome ↔
      ((defaultConfig.sample_duration : ℕ) : ℚ) ≤ 5 - 0 :=
  (claim_C8_synthetic_marked defaultConfig (fun n => List.replicate n 0)
      (fun n => by simp) demoBuffer [] 0 5).2.1

/-! ## Helper lemmas: shutdown -/

theorem count_sentinel_blocks_samples (n : ℕ) :
    ((List.range n).flatMap fun i =>
        [StopAction.setRunningFalse ("analyzer-" ++ toString i),
         StopAction.putSentinel "samples_queue"]).count
      (StopAction.putSentinel "samples_queue") = n := by
  induction n with
  | zero => rfl
  | succ k ih =>
    rw [List.range_succ, List.flatMap_append, List.count_append, ih]
    rfl

theorem count_sentinel_blocks_detections (n : ℕ) :
    ((List.range n).flatMap fun i =>
        [StopAction.setRunningFalse ("analyzer-" ++ toString i),
         StopAction.putSentinel "samples_queue"]).count
      (StopAction.putSentinel "detections_queue") = 0 := by
  induction n with
  | zero => rfl
  | succ k ih =>
    rw [List.range_succ, List.flatMap_append, List.count_append, ih]
    rfl

theorem filter_isLog_blocks (n : ℕ) :
    ((List.range n).flatMap fun i =>
        [StopAction.setRunningFalse ("analyzer-" ++ toString i),
         StopAction.putSentinel "samples_queue"]).filter StopAction.isLog = [] := by
  induction n with
  | zero => rfl
  | succ k ih =>
    rw [List.range_succ, List.flatMap_append, List.filter_append, ih]
    rfl

theorem count_put_joins (ts : List ThreadInfo) (q : String) :
    ((ts.filter fun t => !t.daemon && t.alive).map fun t =>
        StopAction.joinTimeout t.name 5).count (StopAction.putSentinel q) = 0 := by
  rw [List.count_eq_zero]
  intro h
  obtain ⟨t, _, ht⟩ := List.mem_map.mp h
  exact absurd ht (by simp)

theorem filter_isLog_joins (ts : List ThreadInfo) :
    ((ts.filter fun t => !t.daemon && t.alive).map fun t =>
        StopAction.joinTimeout t.name 5).filter StopAction.isLog = [] := by
  rw [List.filter_eq_nil_iff]
  intro a ha
  obtain ⟨t, _, rfl⟩ := List.mem_map.mp ha
  simp [StopAction.isLog]

/-- C7 fails as stated: the shutdown trace is the same whether or not any
thread exits within its join timeout, and its only log entries are the two
fixed messages — no thread that fails to exit within the 5-second join
timeout is ever logged as abandoned (here: every thread hangs, and still
nothing beyond the two fixed messages is logged). -/
theorem claim_C7_counterexample :
    ListenerService.stop 2 demoThreads (fun _ => false) =
      ListenerService.stop 2 demoThreads (fun _ => true)
    ∧ StopAction.joinTimeout "AnalyzerWorker-1" 5 ∈
        ListenerService.stop 2 demoThreads (fun _ => false)
    ∧ (ListenerService.stop 2 demoThreads (fun _ => false)).filter StopAction.isLog =
        [.logMsg "Stopping all workers...", .logMsg "All workers stopped"]
    ∧ ∀ a ∈ ListenerService.stop 2 demoThreads (fun _ => false),
        StopAction.isLog a = true →
          a = .logMsg "Stopping all workers..." ∨ a = .logMsg "All workers stopped" := by
  refine ⟨rfl, by decide, by decide, by decide⟩

/-- C7 amended: on shutdown the supervisor clears the stop flag of every
worker, enqueues one sentinel per analysis worker on the samples queue and
one on the detections queue, and joins every live non-daemon worker thread
with a 5-second timeout — but it does not log threads that fail to exit
within the timeout: its only log output is the two fixed messages. -/
theorem claim_C7_amended_shutdown (num_workers : ℕ) (threads : List ThreadInfo)
    (exits : String → Bool) :
    StopAction.setRunningFalse "recorder" ∈ ListenerService.stop num_workers threads exits
    ∧ StopAction.setRunningFalse "db_writer" ∈ ListenerService.stop num_workers threads exits
    ∧ (∀ i, i < num_workers →
        StopAction.setRunningFalse ("analyzer-" ++ toString i) ∈
          ListenerService.stop num_workers threads exits)
    ∧ (ListenerService.stop num_workers threads exits).count
        (StopAction.putSentinel "samples_queue") = num_workers
    ∧ (ListenerService.stop num_workers threads exits).count
        (StopAction.putSentinel "detections_queue") = 1
    ∧ (∀ t ∈ threads, (!t.daemon && t.alive) = true →
        StopAction.joinTimeout t.name 5 ∈ ListenerService.stop num_workers threads exits)
    ∧ (ListenerService.stop num_workers threads exits).filter StopAction.isLog =
        [.logMsg "Stopping all workers...", .logMsg "All workers stopped"] := by
  unfold ListenerService.stop
  refine ⟨?_, ?_, ?_, ?_, ?_, ?_, ?_⟩
  · simp
  · simp
  · intro i hi
    have hm : StopAction.setRunningFalse ("analyzer-" ++ toString i) ∈
        (List.range num_workers).flatMap (fun i =>
          [StopAction.setRunningFalse ("analyzer-" ++ toString i),
           StopAction.putSentinel "samples_queue"]) :=
      List.mem_flatMap.mpr ⟨i, List.mem_range.mpr hi, by simp⟩
    simp only [List.mem_append]
    tauto
  · rw [List.count_append, List.count_append, List.count_append, List.count_append,
      count_sentinel_blocks_samples, count_put_joins]
    show 0 + (num_workers + (0 + (0 + 0))) = num_workers
    omega
  · rw [List.count_append, List.count_append, List.count_append, List.count_append,
      count_sentinel_blocks_detections, count_put_joins]
    show 0 + (0 + (1 + (0 + 0))) = 1
    omega
  · intro t ht hcond
    have hm : StopAction.joinTimeout t.name 5 ∈
        ((threads.filter fun t => !t.daemon && t.alive).map fun t =>
          StopAction.joinTimeout t.name 5) :=
      List.mem_map.mpr ⟨t, List.mem_filter.mpr ⟨ht, hcond⟩, rfl⟩
    simp only [List.mem_append]
    tauto
  · rw [List.filter_append, List.filter_append, List.filter_append, List.filter_append,
      filter_isLog_blocks, filter_isLog_joins]
    rfl

theorem claim_C7_amended_shutdown_witness :
    (ListenerService.stop 2 demoThreads (fun _ => true)).count
        (StopAction.putSentinel "samples_queue") = 2
    ∧ StopAction.joinTimeout "RecorderWorker" 5 ∈
        ListenerService.stop 2 demoThreads (fun _ => true) :=
  ⟨(claim_C7_amended_shutdown 2 demoThreads (fun _ => true)).2.2.2.1,
   (claim_C7_amended_shutdown 2 demoThreads (fun _ => true)).2.2.2.2.2.1
     ⟨"RecorderWorker", false, true⟩ (by simp [demoThreads]) rfl⟩

end MagPi
